import Mathlib

/-!
Shallow embedding of the order subsystem.

This file embeds the order-placement and inventory core of the e-commerce
backend: `OrderService` from `src/services/order.service.ts`, the entity
rows from `src/entities/order.entity.ts`, `order-item.entity.ts` and
`product.entity.ts`, and the route/controller wiring from
`src/routes/order.routes.ts` / `src/controllers/order.controller.ts`.

Modelling conventions:
* `uuid` columns are `String`s.
* `decimal(10,2)` money columns are embedded as `ℚ` (exact decimal values).
* Integer columns that the code can drive below zero (`stockQuantity`, and
  the request `quantity`, which reaches the service unvalidated) are `ℤ`.
* Timestamps (`@CreateDateColumn` / `@UpdateDateColumn`) are abstract `ℕ`
  instants supplied as a `now` parameter.
* Each TypeORM repository is a list of rows held in a `DB` record; every
  service method is a state-passing function `DB → ⋯ → DB × result`, one
  atomic database action per `await` in the source.
* Internally generated values (the new order's uuid, the
  `ORD-${Date.now()}-${random}` order number) are passed in as parameters.
* Auto-generated row ids that the service logic never reads (the `id`
  column of `OrderItem`) are omitted from the row structures.
-/

/-- The `OrderStatus` enum of `order.entity.ts`. -/
inductive OrderStatus where
  | pending
  | confirmed
  | shipped
  | delivered
  | cancelled
  deriving DecidableEq, Repr

/-- A row of the `product` table (`product.entity.ts`), restricted to the
columns the order subsystem reads or writes.  `stockQuantity` is an `int`
column with no non-negativity constraint, so it is modelled as `ℤ`. -/
structure Product where
  id : String
  name : String
  price : ℚ
  isAvailable : Bool
  stockQuantity : ℤ
  deriving DecidableEq, Repr

/-- A row of the `order_item` table (`order-item.entity.ts`). -/
structure OrderItem where
  orderId : String
  productId : String
  quantity : ℤ
  unitPrice : ℚ
  totalPrice : ℚ
  deriving DecidableEq, Repr

/-- A row of the `order` table (`order.entity.ts`); the `items` relation is
kept in the separate `order_item` table and joined by `getOrderById`. -/
structure OrderRow where
  id : String
  orderNumber : String
  userId : String
  status : OrderStatus
  totalAmount : ℚ
  shippingCost : ℚ
  taxAmount : ℚ
  shippingAddress : Option String
  shippingCity : Option String
  shippingPostalCode : Option String
  shippingCountry : Option String
  notes : Option String
  createdAt : ℕ
  updatedAt : ℕ
  deriving DecidableEq, Repr

/-- The shared durable store: one list of rows per TypeORM repository used
by `OrderService` (`productRepo`, `orderRepo`, `orderItemRepo`). -/
structure DB where
  products : List Product
  orders : List OrderRow
  orderItems : List OrderItem
  deriving DecidableEq, Repr

/-- One element of `CreateOrderRequest.items`: `{ productId, quantity }`.
The `quantity` is whatever number the request body carried — the route has
no validation middleware, so zero and negative values reach the service. -/
structure RequestItem where
  productId : String
  quantity : ℤ
  deriving DecidableEq, Repr

/-- The `CreateOrderRequest` interface of `order.service.ts`. -/
structure CreateOrderRequest where
  items : List RequestItem
  shippingAddress : Option String := none
  shippingCity : Option String := none
  shippingPostalCode : Option String := none
  shippingCountry : Option String := none
  notes : Option String := none
  deriving DecidableEq, Repr

/-- The distinct `throw new Error(...)` sites of `OrderService`.  The spec
(§7) groups `alreadyCancelled` ("Order is already cancelled") and
`cannotCancelDelivered` ("Cannot cancel delivered order") under the error
kind `InvalidTransition`; `insufficientStock` carries the available
quantity that the source interpolates into its message. -/
inductive OrderError where
  | productNotFound (productId : String)
  | productUnavailable (name : String)
  | insufficientStock (name : String) (available : ℤ)
  | orderNotFound
  | alreadyCancelled
  | cannotCancelDelivered
  | retrieveFailed
  deriving DecidableEq, Repr

deriving instance DecidableEq for Except

/-- `productRepo.findOne({ where: { id } })`: first row matching the id. -/
def findProduct (products : List Product) (productId : String) : Option Product :=
  products.find? (fun p => p.id == productId)

/-- `productRepo.decrement({ id }, "stockQuantity", qty)`: the SQL update
`SET stockQuantity = stockQuantity - qty WHERE id = ...`.  Nothing guards
the result against going negative. -/
def decrementStock (products : List Product) (productId : String) (qty : ℤ) : List Product :=
  products.map fun p =>
    if p.id == productId then { p with stockQuantity := p.stockQuantity - qty } else p

/-- `productRepo.increment({ id }, "stockQuantity", qty)`. -/
def incrementStock (products : List Product) (productId : String) (qty : ℤ) : List Product :=
  products.map fun p =>
    if p.id == productId then { p with stockQuantity := p.stockQuantity + qty } else p

/-- The stock the table currently records for `productId` (`0` if there is
no such row) — used to state before/after stock equations. -/
def stockOf (products : List Product) (productId : String) : ℤ :=
  match findProduct products productId with
  | some p => p.stockQuantity
  | none => 0

/-- The validation loop of `OrderService.createOrder` (lines 39–63 of
`order.service.ts`): per request item, fetch the product and throw on
missing / unavailable / `stockQuantity < quantity`; otherwise push a
pending `OrderItem` (its `orderId` is filled in after the order row is
saved, as in the source) and accumulate `totalAmount`. -/
def validateItems (products : List Product) :
    List RequestItem → Except OrderError (ℚ × List OrderItem)
  | [] => .ok (0, [])
  | item :: rest =>
    match findProduct products item.productId with
    | none => .error (.productNotFound item.productId)
    | some product =>
      if product.isAvailable = false then
        .error (.productUnavailable product.name)
      else if product.stockQuantity < item.quantity then
        .error (.insufficientStock product.name product.stockQuantity)
      else
        match validateItems products rest with
        | .error e => .error e
        | .ok (restTotal, restItems) =>
          let itemTotal := product.price * (item.quantity : ℚ)
          .ok (itemTotal + restTotal,
            { orderId := ""
              productId := product.id
              quantity := item.quantity
              unitPrice := product.price
              totalPrice := itemTotal } :: restItems)

/-- `OrderService.getOrderById`: `orderRepo.findOne` with the `items`
relation joined in. -/
def getOrderById (db : DB) (orderId : String) : Option (OrderRow × List OrderItem) :=
  match db.orders.find? (fun o => o.id == orderId) with
  | none => none
  | some o => some (o, db.orderItems.filter (fun it => it.orderId == orderId))

/-- The order row `orderRepo.create({...})` builds at lines 66–76 of
`order.service.ts`: status starts `PENDING`, `shippingCost` / `taxAmount`
take their column defaults, both timestamps are the insertion instant. -/
def createdRow (userId : String) (orderData : CreateOrderRequest) (totalAmount : ℚ)
    (newOrderId orderNumber : String) (now : ℕ) : OrderRow :=
  { id := newOrderId
    orderNumber := orderNumber
    userId := userId
    status := .pending
    totalAmount := totalAmount
    shippingCost := 0
    taxAmount := 0
    shippingAddress := orderData.shippingAddress
    shippingCity := orderData.shippingCity
    shippingPostalCode := orderData.shippingPostalCode
    shippingCountry := orderData.shippingCountry
    notes := orderData.notes
    createdAt := now
    updatedAt := now }

/-- `{...item, orderId: savedOrder.id}` (line 81–84): stamp a pending item
row with the saved order's id. -/
def withOrderId (newOrderId : String) (it : OrderItem) : OrderItem :=
  { it with orderId := newOrderId }

/-- The write phase of `OrderService.createOrder` (lines 65–99 of
`order.service.ts`), reached only after the validation loop passed: save
the order row, save the item rows with the fresh `orderId`, decrement each
requested product's stock, and read the created order back. -/
def commitOrder (db : DB) (userId : String) (orderData : CreateOrderRequest)
    (totalAmount : ℚ) (orderItems : List OrderItem)
    (newOrderId orderNumber : String) (now : ℕ) :
    DB × Except OrderError (OrderRow × List OrderItem) :=
  let order : OrderRow := createdRow userId orderData totalAmount newOrderId orderNumber now
  let db1 : DB := { db with orders := db.orders ++ [order] }
  let orderItemsWithOrderId := orderItems.map (withOrderId newOrderId)
  let db2 : DB := { db1 with orderItems := db1.orderItems ++ orderItemsWithOrderId }
  let db3 : DB := { db2 with
    products := orderData.items.foldl
      (fun ps it => decrementStock ps it.productId it.quantity) db2.products }
  match getOrderById db3 newOrderId with
  | none => (db3, .error .retrieveFailed)
  | some (o, its) => (db3, .ok (o, its))

/-- `OrderService.createOrder`.  The validation loop runs first (reads
only); only when every item passes does the write phase run.  A
validation failure therefore returns the store unchanged.  `newOrderId`
is the uuid the database generates for the order row and `orderNumber`
the `ORD-...` string generated at line 32. -/
def createOrder (db : DB) (userId : String) (orderData : CreateOrderRequest)
    (newOrderId orderNumber : String) (now : ℕ) :
    DB × Except OrderError (OrderRow × List OrderItem) :=
  match validateItems db.products orderData.items with
  | .error e => (db, .error e)
  | .ok (totalAmount, orderItems) =>
    commitOrder db userId orderData totalAmount orderItems newOrderId orderNumber now

/-- The row transformation of `orderRepo.update({ id: orderId }, { status })`:
set `status` (and the `@UpdateDateColumn` timestamp) on every row whose id
matches, leave every other row untouched. -/
def setStatusRow (orderId : String) (status : OrderStatus) (now : ℕ) (o : OrderRow) : OrderRow :=
  if o.id == orderId then { o with status := status, updatedAt := now } else o

/-- `OrderService.updateOrderStatus`: `orderRepo.update({ id }, { status })`
— an unconditional single-column update (plus the `@UpdateDateColumn`
timestamp) followed by `getOrderById`.  No transition check of any kind is
performed. -/
def updateOrderStatus (db : DB) (orderId : String) (status : OrderStatus) (now : ℕ) :
    DB × Option (OrderRow × List OrderItem) :=
  let db' : DB := { db with orders := db.orders.map (setStatusRow orderId status now) }
  (db', getOrderById db' orderId)

/-- `OrderService.cancelOrder`: load the order, reject a missing /
already-cancelled / delivered order before touching anything, then
increment every item's product stock and set the status to `CANCELLED`
through `updateOrderStatus`. -/
def cancelOrder (db : DB) (orderId : String) (now : ℕ) :
    DB × Except OrderError (Option (OrderRow × List OrderItem)) :=
  match getOrderById db orderId with
  | none => (db, .error .orderNotFound)
  | some (order, items) =>
    if order.status = OrderStatus.cancelled then
      (db, .error .alreadyCancelled)
    else if order.status = OrderStatus.delivered then
      (db, .error .cannotCancelDelivered)
    else
      let db1 : DB := { db with
        products := items.foldl
          (fun ps it => incrementStock ps it.productId it.quantity) db.products }
      let r := updateOrderStatus db1 orderId OrderStatus.cancelled now
      (r.1, .ok r.2)

/-- `ORDER BY order.createdAt DESC`: the comparison the query builder
sorts by in `getUserOrders` / `getAllOrders`. -/
def createdDesc (a b : OrderRow) : Prop := b.createdAt ≤ a.createdAt

instance : DecidableRel createdDesc := fun a b => Nat.decLe b.createdAt a.createdAt

instance : IsTotal OrderRow createdDesc := ⟨fun a b => le_total b.createdAt a.createdAt⟩

instance : IsTrans OrderRow createdDesc := ⟨fun _ _ _ h1 h2 => le_trans h2 h1⟩

/-- The record both paginated queries return:
`{ orders, total, page, limit, totalPages }`. -/
structure PagedOrders where
  orders : List (OrderRow × List OrderItem)
  total : ℕ
  page : ℕ
  limit : ℕ
  totalPages : ℕ
  deriving Repr

/-- Shared body of `getUserOrders` / `getAllOrders` applied to the rows the
query's WHERE clause selected: count them, sort by `createdAt DESC`, take
the `[(page-1)*limit, page*limit)` slice, join each order's items, and
compute `totalPages = Math.ceil(total / limit)` (exact ceiling of the real
division, embedded over `ℚ`). -/
def paginate (db : DB) (matching : List OrderRow) (page limit : ℕ) : PagedOrders :=
  let total := matching.length
  let sorted := List.insertionSort createdDesc matching
  let offset := (page - 1) * limit
  let selected := (sorted.drop offset).take limit
  { orders := selected.map fun o => (o, db.orderItems.filter (fun it => it.orderId == o.id))
    total := total
    page := page
    limit := limit
    totalPages := ⌈(total : ℚ) / (limit : ℚ)⌉₊ }

/-- `OrderService.getUserOrders`: the query builder filtered by
`order.userId = :userId`.  The method only issues SELECTs, so the store
comes back unchanged. -/
def getUserOrders (db : DB) (userId : String) (page limit : ℕ) : DB × PagedOrders :=
  (db, paginate db (db.orders.filter fun o => o.userId == userId) page limit)

/-- `OrderService.getAllOrders`: same query without the user filter. -/
def getAllOrders (db : DB) (page limit : ℕ) : DB × PagedOrders :=
  (db, paginate db db.orders page limit)

/-- The three mutating operations `OrderService` exposes (the remaining
methods — `getOrderById`, `getUserOrders`, `getAllOrders` — only read). -/
inductive ServiceOp where
  | create (userId : String) (orderData : CreateOrderRequest)
      (newOrderId orderNumber : String) (now : ℕ)
  | cancel (orderId : String) (now : ℕ)
  | updateStatus (orderId : String) (status : OrderStatus) (now : ℕ)

/-- The store an operation leaves behind (whether it succeeds or throws). -/
def runOp (db : DB) : ServiceOp → DB
  | .create userId orderData newOrderId orderNumber now =>
    (createOrder db userId orderData newOrderId orderNumber now).1
  | .cancel orderId now => (cancelOrder db orderId now).1
  | .updateStatus orderId status now => (updateOrderStatus db orderId status now).1

/-- The transition table of spec §4.1, written from the spec's words (the
source's `updateOrderStatus` contains no such check — this definition
exists to state what the spec requires and compare it with the code). -/
def specAllowedTransition : OrderStatus → OrderStatus → Bool
  | .pending, .confirmed | .pending, .shipped | .pending, .delivered | .pending, .cancelled => true
  | .confirmed, .shipped | .confirmed, .delivered | .confirmed, .cancelled => true
  | .shipped, .delivered | .shipped, .cancelled => true
  | _, _ => false

/-- Spec §7 groups the two cancellation guards under `InvalidTransition`. -/
def OrderError.isInvalidTransition : OrderError → Bool
  | .alreadyCancelled => true
  | .cannotCancelDelivered => true
  | _ => false

/-- One admissible interleaving of two concurrent `createOrder` calls
against the same store.  Every `await` in the source is a scheduling
point, and the validation loop performs only reads, so the schedule in
which both calls run their whole validation loop before either call's
write phase is a legal execution of the request-parallel model of spec §5:
call 1 validates, call 2 validates, call 1 commits, call 2 commits.
Returns the final store and each call's outcome. -/
def createOrderPair (db : DB)
    (u1 : String) (r1 : CreateOrderRequest) (id1 num1 : String)
    (u2 : String) (r2 : CreateOrderRequest) (id2 num2 : String) (now : ℕ) :
    DB × Except OrderError (OrderRow × List OrderItem) ×
      Except OrderError (OrderRow × List OrderItem) :=
  match validateItems db.products r1.items, validateItems db.products r2.items with
  | .error e1, .error e2 => (db, .error e1, .error e2)
  | .error e1, .ok (t2, ois2) =>
    let c := commitOrder db u2 r2 t2 ois2 id2 num2 now
    (c.1, .error e1, c.2)
  | .ok (t1, ois1), .error e2 =>
    let c := commitOrder db u1 r1 t1 ois1 id1 num1 now
    (c.1, c.2, .error e2)
  | .ok (t1, ois1), .ok (t2, ois2) =>
    let c1 := commitOrder db u1 r1 t1 ois1 id1 num1 now
    let c2 := commitOrder c1.1 u2 r2 t2 ois2 id2 num2 now
    (c2.1, c1.2, c2.2)

/-- Total quantity a request's items ask for out of one product's stock. -/
def requestedQty (items : List RequestItem) (pid : String) : ℤ :=
  ((items.filter fun it => it.productId == pid).map fun it => it.quantity).sum

/-- Total quantity an order's persisted items record against one product. -/
def recordedQty (items : List OrderItem) (pid : String) : ℤ :=
  ((items.filter fun it => it.productId == pid).map fun it => it.quantity).sum

/-! Stock accounting lemmas. -/

lemma requestedQty_cons (it : RequestItem) (rest : List RequestItem) (pid : String) :
    requestedQty (it :: rest) pid =
      (if it.productId = pid then it.quantity else 0) + requestedQty rest pid := by
  by_cases h : it.productId = pid <;> simp [requestedQty, List.filter_cons, h]

lemma recordedQty_cons (it : OrderItem) (rest : List OrderItem) (pid : String) :
    recordedQty (it :: rest) pid =
      (if it.productId = pid then it.quantity else 0) + recordedQty rest pid := by
  by_cases h : it.productId = pid <;> simp [recordedQty, List.filter_cons, h]

lemma findProduct_decrementStock (ps : List Product) (pid' pid : String) (q : ℤ) :
    findProduct (decrementStock ps pid' q) pid =
      (findProduct ps pid).map fun p =>
        if p.id == pid' then { p with stockQuantity := p.stockQuantity - q } else p := by
  have hfun : ((fun p : Product => p.id == pid) ∘ fun p =>
      if p.id == pid' then { p with stockQuantity := p.stockQuantity - q } else p)
      = fun p : Product => p.id == pid := by
    funext p
    by_cases h : p.id = pid' <;> simp [h]
  unfold findProduct decrementStock
  rw [List.find?_map, hfun]

lemma findProduct_incrementStock (ps : List Product) (pid' pid : String) (q : ℤ) :
    findProduct (incrementStock ps pid' q) pid =
      (findProduct ps pid).map fun p =>
        if p.id == pid' then { p with stockQuantity := p.stockQuantity + q } else p := by
  have hfun : ((fun p : Product => p.id == pid) ∘ fun p =>
      if p.id == pid' then { p with stockQuantity := p.stockQuantity + q } else p)
      = fun p : Product => p.id == pid := by
    funext p
    by_cases h : p.id = pid' <;> simp [h]
  unfold findProduct incrementStock
  rw [List.find?_map, hfun]

lemma stockOf_decrementStock (ps : List Product) (pid' pid : String) (q : ℤ) (p : Product)
    (hp : findProduct ps pid = some p) :
    stockOf (decrementStock ps pid' q) pid =
      stockOf ps pid - (if pid' = pid then q else 0) := by
  have hid : p.id = pid := by
    have := List.find?_some hp
    simpa using this
  rw [stockOf, stockOf, findProduct_decrementStock, hp]
  by_cases h : pid' = pid
  · simp [hid, h]
  · have hne : p.id ≠ pid' := by
      rw [hid]
      exact fun hh => h hh.symm
    simp [hne, h]

lemma stockOf_incrementStock (ps : List Product) (pid' pid : String) (q : ℤ) (p : Product)
    (hp : findProduct ps pid = some p) :
    stockOf (incrementStock ps pid' q) pid =
      stockOf ps pid + (if pid' = pid then q else 0) := by
  have hid : p.id = pid := by
    have := List.find?_some hp
    simpa using this
  rw [stockOf, stockOf, findProduct_incrementStock, hp]
  by_cases h : pid' = pid
  · simp [hid, h]
  · have hne : p.id ≠ pid' := by
      rw [hid]
      exact fun hh => h hh.symm
    simp [hne, h]

lemma stockOf_foldl_decrementStock (items : List RequestItem) (ps : List Product) (pid : String)
    (hp : (findProduct ps pid).isSome) :
    stockOf (items.foldl (fun a it => decrementStock a it.productId it.quantity) ps) pid =
      stockOf ps pid - requestedQty items pid := by
  induction items generalizing ps with
  | nil => simp [requestedQty]
  | cons it rest ih =>
    obtain ⟨p, hpeq⟩ := Option.isSome_iff_exists.mp hp
    have hpres : (findProduct (decrementStock ps it.productId it.quantity) pid).isSome := by
      rw [findProduct_decrementStock, hpeq]
      simp
    rw [List.foldl_cons, ih _ hpres, stockOf_decrementStock _ _ _ _ p hpeq, requestedQty_cons]
    by_cases h : it.productId = pid
    · simp only [h, if_true]
      ring
    · simp [h]

lemma stockOf_foldl_incrementStock (items : List OrderItem) (ps : List Product) (pid : String)
    (hp : (findProduct ps pid).isSome) :
    stockOf (items.foldl (fun a it => incrementStock a it.productId it.quantity) ps) pid =
      stockOf ps pid + recordedQty items pid := by
  induction items generalizing ps with
  | nil => simp [recordedQty]
  | cons it rest ih =>
    obtain ⟨p, hpeq⟩ := Option.isSome_iff_exists.mp hp
    have hpres : (findProduct (incrementStock ps it.productId it.quantity) pid).isSome := by
      rw [findProduct_incrementStock, hpeq]
      simp
    rw [List.foldl_cons, ih _ hpres, stockOf_incrementStock _ _ _ _ p hpeq, recordedQty_cons]
    by_cases h : it.productId = pid
    · simp only [h, if_true]
      ring
    · simp [h]

/-! Lemmas about the validation loop. -/

lemma validateItems_ok (products : List Product) (items : List RequestItem)
    (t : ℚ) (ois : List OrderItem)
    (h : validateItems products items = .ok (t, ois)) :
    t = (ois.map OrderItem.totalPrice).sum ∧
    (∀ oi ∈ ois, oi.totalPrice = oi.unitPrice * (oi.quantity : ℚ) ∧
      ∃ p, findProduct products oi.productId = some p ∧ oi.unitPrice = p.price ∧
        p.isAvailable = true ∧ ¬ p.stockQuantity < oi.quantity) ∧
    ois.map (fun oi => (oi.productId, oi.quantity)) =
      items.map (fun it => (it.productId, it.quantity)) := by
  induction items generalizing t ois with
  | nil =>
    simp only [validateItems] at h
    cases h
    simp
  | cons it rest ih =>
    cases hfp : findProduct products it.productId with
    | none =>
      simp only [validateItems, hfp] at h
      cases h
    | some p =>
      simp only [validateItems, hfp] at h
      have hid : p.id = it.productId := by
        have := List.find?_some hfp
        simpa using this
      by_cases hav : p.isAvailable = false
      · rw [if_pos hav] at h; cases h
      · rw [if_neg hav] at h
        by_cases hst : p.stockQuantity < it.quantity
        · rw [if_pos hst] at h; cases h
        · rw [if_neg hst] at h
          cases hrec : validateItems products rest with
          | error e => rw [hrec] at h; cases h
          | ok pr =>
            obtain ⟨rt, ris⟩ := pr
            rw [hrec] at h
            simp only [Except.ok.injEq, Prod.mk.injEq] at h
            obtain ⟨ht, hois⟩ := h
            obtain ⟨hsum, hgood, hmap⟩ := ih rt ris hrec
            subst ht
            subst hois
            refine ⟨?_, ?_, ?_⟩
            · simp [hsum]
            · intro oi hoi
              rcases List.mem_cons.mp hoi with hhd | htl
              · subst hhd
                refine ⟨rfl, p, ?_, rfl, ?_, ?_⟩
                · simpa [hid] using hfp
                · cases hb : p.isAvailable
                  · exact absurd hb hav
                  · rfl
                · simpa using hst
              · exact hgood oi htl
            · simp [hmap, hid]

lemma validateItems_error (products : List Product) (items : List RequestItem)
    (e : OrderError) (h : validateItems products items = .error e) :
    (∃ pid, e = .productNotFound pid ∧ (∃ it ∈ items, it.productId = pid) ∧
      findProduct products pid = none) ∨
    (∃ nm, e = .productUnavailable nm ∧ ∃ it ∈ items, ∃ p,
      findProduct products it.productId = some p ∧ p.name = nm ∧ p.isAvailable = false) ∨
    (∃ nm avail, e = .insufficientStock nm avail ∧ ∃ it ∈ items, ∃ p,
      findProduct products it.productId = some p ∧ p.name = nm ∧
      avail = p.stockQuantity ∧ p.stockQuantity < it.quantity) := by
  induction items with
  | nil =>
    simp only [validateItems] at h
    cases h
  | cons it rest ih =>
    cases hfp : findProduct products it.productId with
    | none =>
      simp only [validateItems, hfp] at h
      cases h
      exact Or.inl ⟨it.productId, rfl, ⟨it, List.mem_cons_self it rest, rfl⟩, hfp⟩
    | some p =>
      simp only [validateItems, hfp] at h
      by_cases hav : p.isAvailable = false
      · rw [if_pos hav] at h
        cases h
        exact Or.inr (Or.inl ⟨p.name, rfl, it, List.mem_cons_self it rest, p, hfp, rfl, hav⟩)
      · rw [if_neg hav] at h
        by_cases hst : p.stockQuantity < it.quantity
        · rw [if_pos hst] at h
          cases h
          exact Or.inr (Or.inr ⟨p.name, p.stockQuantity, rfl, it, List.mem_cons_self it rest,
            p, hfp, rfl, rfl, hst⟩)
        · rw [if_neg hst] at h
          cases hrec : validateItems products rest with
          | error e2 =>
            rw [hrec] at h
            cases h
            rcases ih hrec with h1 | h2 | h3
            · obtain ⟨pid, he, ⟨it2, hm, hpid⟩, hnone⟩ := h1
              exact Or.inl ⟨pid, he, ⟨it2, List.mem_cons_of_mem it hm, hpid⟩, hnone⟩
            · obtain ⟨nm, he, it2, hm, p2, hfp2, hn, hv⟩ := h2
              exact Or.inr (Or.inl ⟨nm, he, it2, List.mem_cons_of_mem it hm, p2, hfp2, hn, hv⟩)
            · obtain ⟨nm, avail, he, it2, hm, p2, hfp2, hn, ha, hs⟩ := h3
              exact Or.inr (Or.inr ⟨nm, avail, he, it2, List.mem_cons_of_mem it hm,
                p2, hfp2, hn, ha, hs⟩)
          | ok pr =>
            obtain ⟨rt, ris⟩ := pr
            rw [hrec] at h
            cases h

lemma validateItems_isOk (products : List Product) (items : List RequestItem)
    (hgood : ∀ it ∈ items, ∃ p, findProduct products it.productId = some p ∧
      p.isAvailable = true ∧ ¬ p.stockQuantity < it.quantity) :
    ∃ t ois, validateItems products items = .ok (t, ois) := by
  induction items with
  | nil => exact ⟨0, [], rfl⟩
  | cons it rest ih =>
    obtain ⟨p, hfp, hav, hst⟩ := hgood it (List.mem_cons_self it rest)
    obtain ⟨rt, ris, hrec⟩ := ih fun x hx => hgood x (List.mem_cons_of_mem it hx)
    refine ⟨p.price * (it.quantity : ℚ) + rt,
      { orderId := ""
        productId := p.id
        quantity := it.quantity
        unitPrice := p.price
        totalPrice := p.price * (it.quantity : ℚ) } :: ris, ?_⟩
    simp only [validateItems, hfp, hrec]
    rw [if_neg (by simp [hav]), if_neg hst]

/-! Shape lemmas for the service operations. -/

lemma getOrderById_eq_some {db : DB} {oid : String} {o : OrderRow} {its : List OrderItem}
    (h : getOrderById db oid = some (o, its)) :
    db.orders.find? (fun r => r.id == oid) = some o ∧
    its = db.orderItems.filter fun it => it.orderId == oid := by
  unfold getOrderById at h
  cases hf : db.orders.find? (fun r => r.id == oid) <;> rw [hf] at h
  · cases h
  · simp only [Option.some.injEq, Prod.mk.injEq] at h
    exact ⟨by rw [h.1], h.2.symm⟩

lemma commitOrder_eq {db : DB} {u : String} {od : CreateOrderRequest} {t : ℚ}
    {ois : List OrderItem} {nid onum : String} {now : ℕ}
    (hfreshO : ∀ o ∈ db.orders, o.id ≠ nid)
    (hfreshI : ∀ it ∈ db.orderItems, it.orderId ≠ nid) :
    commitOrder db u od t ois nid onum now =
      ({ products := od.items.foldl (fun a it => decrementStock a it.productId it.quantity)
           db.products
         orders := db.orders ++ [createdRow u od t nid onum now]
         orderItems := db.orderItems ++ ois.map (withOrderId nid) },
       .ok (createdRow u od t nid onum now, ois.map (withOrderId nid))) := by
  have hfind : (db.orders ++ [createdRow u od t nid onum now]).find?
      (fun r => r.id == nid) = some (createdRow u od t nid onum now) := by
    rw [List.find?_append]
    have h1 : db.orders.find? (fun r => r.id == nid) = none :=
      List.find?_eq_none.mpr fun x hx => by simp [hfreshO x hx]
    rw [h1]
    simp [createdRow]
  have hfilter : ((db.orderItems ++ ois.map (withOrderId nid)).filter
      fun it => it.orderId == nid) = ois.map (withOrderId nid) := by
    rw [List.filter_append]
    have h1 : db.orderItems.filter (fun it => it.orderId == nid) = [] := by
      rw [List.filter_eq_nil_iff]
      intro x hx
      simp [hfreshI x hx]
    have h2 : ((ois.map (withOrderId nid)).filter
        fun it => it.orderId == nid) = ois.map (withOrderId nid) := by
      rw [List.filter_eq_self]
      intro x hx
      obtain ⟨y, hy, rfl⟩ := List.mem_map.mp hx
      simp [withOrderId]
    rw [h1, h2, List.nil_append]
  simp only [commitOrder, getOrderById, hfind, hfilter]

lemma createOrder_validate_error {db : DB} (u : String) {od : CreateOrderRequest}
    (nid onum : String) (now : ℕ) {e : OrderError}
    (h : validateItems db.products od.items = .error e) :
    createOrder db u od nid onum now = (db, .error e) := by
  simp only [createOrder, h]

lemma createOrder_validate_ok {db : DB} (u : String) {od : CreateOrderRequest}
    (nid onum : String) (now : ℕ) {t : ℚ} {ois : List OrderItem}
    (h : validateItems db.products od.items = .ok (t, ois)) :
    createOrder db u od nid onum now = commitOrder db u od t ois nid onum now := by
  simp only [createOrder, h]

lemma find?_orders_update (l : List OrderRow) (oid qid : String) (st : OrderStatus) (now : ℕ) :
    ((l.map (setStatusRow oid st now)).find? fun r => r.id == qid) =
      (l.find? fun r => r.id == qid).map (setStatusRow oid st now) := by
  have hfun : ((fun r : OrderRow => r.id == qid) ∘ setStatusRow oid st now)
      = fun r : OrderRow => r.id == qid := by
    funext o
    by_cases h : o.id = oid <;> simp [setStatusRow, h]
  rw [List.find?_map, hfun]

lemma updateOrderStatus_found {db : DB} {oid : String} {st : OrderStatus} {now : ℕ}
    {o : OrderRow} (h : db.orders.find? (fun r => r.id == oid) = some o) :
    updateOrderStatus db oid st now =
      ({ db with orders := db.orders.map (setStatusRow oid st now) },
       some ({ o with status := st, updatedAt := now },
         db.orderItems.filter fun it => it.orderId == oid)) := by
  have hpred : o.id = oid := by
    have := List.find?_some h
    simpa using this
  simp only [updateOrderStatus, getOrderById, find?_orders_update, h]
  simp [setStatusRow, hpred]

lemma cancelOrder_ok_eq {db : DB} {oid : String} (now : ℕ)
    {o : OrderRow} {its : List OrderItem}
    (h : getOrderById db oid = some (o, its))
    (hc : o.status ≠ OrderStatus.cancelled) (hd : o.status ≠ OrderStatus.delivered) :
    cancelOrder db oid now =
      ({ products := its.foldl (fun a it => incrementStock a it.productId it.quantity) db.products
         orders := db.orders.map (setStatusRow oid OrderStatus.cancelled now)
         orderItems := db.orderItems },
       .ok (some ({ o with status := .cancelled, updatedAt := now }, its))) := by
  obtain ⟨hfind, hits⟩ := getOrderById_eq_some h
  have hpred : o.id = oid := by
    have := List.find?_some hfind
    simpa using this
  simp only [cancelOrder, h]
  rw [if_neg hc, if_neg hd]
  simp only [updateOrderStatus, getOrderById, find?_orders_update, hfind]
  simp [setStatusRow, hpred, hits]

lemma cancelOrder_already {db : DB} {oid : String} {now : ℕ}
    {o : OrderRow} {its : List OrderItem}
    (h : getOrderById db oid = some (o, its)) (hc : o.status = OrderStatus.cancelled) :
    cancelOrder db oid now = (db, .error .alreadyCancelled) := by
  simp only [cancelOrder, h]
  rw [if_pos hc]

lemma cancelOrder_delivered {db : DB} {oid : String} {now : ℕ}
    {o : OrderRow} {its : List OrderItem}
    (h : getOrderById db oid = some (o, its)) (hd : o.status = OrderStatus.delivered) :
    cancelOrder db oid now = (db, .error .cannotCancelDelivered) := by
  simp only [cancelOrder, h]
  rw [if_neg (by simp [hd]), if_pos hd]

/-! Pagination lemmas. -/

lemma ceil_div_bounds (t l : ℕ) (hl : 1 ≤ l) :
    t ≤ ⌈(t : ℚ) / (l : ℚ)⌉₊ * l ∧ ⌈(t : ℚ) / (l : ℚ)⌉₊ * l < t + l := by
  have hl0 : (0 : ℚ) < (l : ℚ) := by exact_mod_cast hl
  constructor
  · have h1 : (t : ℚ) / (l : ℚ) ≤ (⌈(t : ℚ) / (l : ℚ)⌉₊ : ℚ) := Nat.le_ceil _
    have h2 : (t : ℚ) ≤ (⌈(t : ℚ) / (l : ℚ)⌉₊ : ℚ) * (l : ℚ) := by
      rw [div_le_iff₀ hl0] at h1
      exact h1
    exact_mod_cast h2
  · have h1 : (⌈(t : ℚ) / (l : ℚ)⌉₊ : ℚ) < (t : ℚ) / (l : ℚ) + 1 :=
      Nat.ceil_lt_add_one (by positivity)
    have h2 : (⌈(t : ℚ) / (l : ℚ)⌉₊ : ℚ) * (l : ℚ) < (t : ℚ) + (l : ℚ) := by
      have := mul_lt_mul_of_pos_right h1 hl0
      calc (⌈(t : ℚ) / (l : ℚ)⌉₊ : ℚ) * (l : ℚ)
          < ((t : ℚ) / (l : ℚ) + 1) * (l : ℚ) := this
        _ = (t : ℚ) + (l : ℚ) := by field_simp
    exact_mod_cast h2

lemma paginate_spec (db : DB) (matching : List OrderRow) (page limit : ℕ) (hl : 1 ≤ limit) :
    (paginate db matching page limit).total = matching.length ∧
    (paginate db matching page limit).page = page ∧
    (paginate db matching page limit).limit = limit ∧
    (paginate db matching page limit).orders.length ≤ limit ∧
    ((paginate db matching page limit).orders.map Prod.fst).Sorted createdDesc ∧
    (∃ all : List OrderRow, all.Perm matching ∧ all.Sorted createdDesc ∧
      (paginate db matching page limit).orders.map Prod.fst =
        (all.drop ((page - 1) * limit)).take limit) ∧
    (paginate db matching page limit).totalPages =
      ⌈((matching.length : ℚ)) / (limit : ℚ)⌉₊ ∧
    matching.length ≤ (paginate db matching page limit).totalPages * limit ∧
    (paginate db matching page limit).totalPages * limit < matching.length + limit := by
  have hsorted : (List.insertionSort createdDesc matching).Sorted createdDesc :=
    List.sorted_insertionSort createdDesc matching
  have hperm : (List.insertionSort createdDesc matching).Perm matching :=
    List.perm_insertionSort createdDesc matching
  have hsub : (((List.insertionSort createdDesc matching).drop ((page - 1) * limit)).take limit).Sublist
      (List.insertionSort createdDesc matching) :=
    List.Sublist.trans (List.take_sublist _ _) (List.drop_sublist _ _)
  have hmapfst : (paginate db matching page limit).orders.map Prod.fst =
      ((List.insertionSort createdDesc matching).drop ((page - 1) * limit)).take limit := by
    simp only [paginate, List.map_map]
    have hcomp : (Prod.fst ∘ fun o : OrderRow =>
        (o, db.orderItems.filter fun it => it.orderId == o.id)) = id := by
      funext o
      rfl
    rw [hcomp, List.map_id]
  obtain ⟨hb1, hb2⟩ := ceil_div_bounds matching.length limit hl
  refine ⟨rfl, rfl, rfl, ?_, ?_, ⟨List.insertionSort createdDesc matching, hperm, hsorted, hmapfst⟩,
    rfl, hb1, hb2⟩
  · simp only [paginate, List.length_map]
    exact List.length_take_le _ _
  · rw [hmapfst]
    exact List.Pairwise.sublist hsub hsorted

/-! Frame and counting lemmas. -/

lemma commitOrder_fst (db : DB) (u : String) (od : CreateOrderRequest) (t : ℚ)
    (ois : List OrderItem) (nid onum : String) (now : ℕ) :
    (commitOrder db u od t ois nid onum now).1 =
      { products := od.items.foldl (fun a it => decrementStock a it.productId it.quantity)
          db.products
        orders := db.orders ++ [createdRow u od t nid onum now]
        orderItems := db.orderItems ++ ois.map (withOrderId nid) } := by
  simp only [commitOrder]
  split <;> rfl

lemma commitOrder_snd_error (db : DB) (u : String) (od : CreateOrderRequest) (t : ℚ)
    (ois : List OrderItem) (nid onum : String) (now : ℕ) (e : OrderError)
    (h : (commitOrder db u od t ois nid onum now).2 = .error e) :
    e = .retrieveFailed := by
  simp only [commitOrder] at h
  split at h <;> simp_all

lemma runOp_orderItems_append (db : DB) (op : ServiceOp) :
    ∃ newRows, (runOp db op).orderItems = db.orderItems ++ newRows := by
  cases op with
  | create u od nid onum now =>
    cases hv : validateItems db.products od.items with
    | error e =>
      exact ⟨[], by simp [runOp, createOrder_validate_error u nid onum now hv]⟩
    | ok pr =>
      obtain ⟨t, ois⟩ := pr
      refine ⟨ois.map (withOrderId nid), ?_⟩
      simp only [runOp, createOrder_validate_ok u nid onum now hv, commitOrder_fst]
  | cancel oid now =>
    refine ⟨[], ?_⟩
    rw [List.append_nil]
    cases hg : getOrderById db oid with
    | none => simp [runOp, cancelOrder, hg]
    | some v =>
      obtain ⟨o, its⟩ := v
      by_cases h1 : o.status = OrderStatus.cancelled
      · rw [runOp, cancelOrder_already hg h1]
      · by_cases h2 : o.status = OrderStatus.delivered
        · rw [runOp, cancelOrder_delivered hg h2]
        · rw [runOp, cancelOrder_ok_eq now hg h1 h2]
  | updateStatus oid st now =>
    exact ⟨[], by simp [runOp, updateOrderStatus]⟩

lemma requestedQty_eq_zero (items : List RequestItem) (pid : String)
    (h : ∀ it ∈ items, it.productId ≠ pid) : requestedQty items pid = 0 := by
  have hf : items.filter (fun it => it.productId == pid) = [] :=
    List.filter_eq_nil_iff.mpr fun x hx => by simp [h x hx]
  simp [requestedQty, hf]

lemma recordedQty_eq_zero (items : List OrderItem) (pid : String)
    (h : ∀ it ∈ items, it.productId ≠ pid) : recordedQty items pid = 0 := by
  have hf : items.filter (fun it => it.productId == pid) = [] :=
    List.filter_eq_nil_iff.mpr fun x hx => by simp [h x hx]
  simp [recordedQty, hf]

lemma requestedQty_nodup (items : List RequestItem)
    (hnd : (items.map RequestItem.productId).Nodup) :
    ∀ it ∈ items, requestedQty items it.productId = it.quantity := by
  induction items with
  | nil => intro it hit; cases hit
  | cons hd rest ih =>
    rw [List.map_cons, List.nodup_cons] at hnd
    intro it hit
    rcases List.mem_cons.mp hit with rfl | hmem
    · rw [requestedQty_cons, if_pos rfl, requestedQty_eq_zero rest it.productId
        (fun x hx heq => hnd.1 (heq ▸ List.mem_map_of_mem RequestItem.productId hx))]
      ring
    · have hne : hd.productId ≠ it.productId := fun heq =>
        hnd.1 (heq ▸ List.mem_map_of_mem RequestItem.productId hmem)
      rw [requestedQty_cons, if_neg hne, ih hnd.2 it hmem]
      ring

lemma recordedQty_nodup (items : List OrderItem)
    (hnd : (items.map OrderItem.productId).Nodup) :
    ∀ it ∈ items, recordedQty items it.productId = it.quantity := by
  induction items with
  | nil => intro it hit; cases hit
  | cons hd rest ih =>
    rw [List.map_cons, List.nodup_cons] at hnd
    intro it hit
    rcases List.mem_cons.mp hit with rfl | hmem
    · rw [recordedQty_cons, if_pos rfl, recordedQty_eq_zero rest it.productId
        (fun x hx heq => hnd.1 (heq ▸ List.mem_map_of_mem OrderItem.productId hx))]
      ring
    · have hne : hd.productId ≠ it.productId := fun heq =>
        hnd.1 (heq ▸ List.mem_map_of_mem OrderItem.productId hmem)
      rw [recordedQty_cons, if_neg hne, ih hnd.2 it hmem]
      ring

lemma findProduct_foldl_decrementStock_none (items : List RequestItem) (ps : List Product)
    (pid : String) (h : findProduct ps pid = none) :
    findProduct (items.foldl (fun a it => decrementStock a it.productId it.quantity) ps) pid
      = none := by
  induction items generalizing ps with
  | nil => exact h
  | cons it rest ih =>
    rw [List.foldl_cons]
    exact ih _ (by rw [findProduct_decrementStock, h]; rfl)

lemma forall₂_map_self {α β : Type} (f : α → β) (R : α → β → Prop)
    (h : ∀ a, R a (f a)) (l : List α) : List.Forall₂ R l (l.map f) := by
  induction l with
  | nil => exact List.Forall₂.nil
  | cons x xs ih => exact List.Forall₂.cons (h x) ih

/-! Concrete fixtures. -/

/-- An available product with five units in stock. -/
def productA : Product :=
  { id := "A", name := "Product A", price := 1, isAvailable := true, stockQuantity := 5 }

/-- A store holding only `productA`. -/
def dbStock5 : DB := { products := [productA], orders := [], orderItems := [] }

/-- A request for three units of product `A`. -/
def reqQty3 : CreateOrderRequest := { items := [{ productId := "A", quantity := 3 }] }

/-- A request with two line items for the same product, three units each. -/
def reqDupA : CreateOrderRequest :=
  { items := [{ productId := "A", quantity := 3 }, { productId := "A", quantity := 3 }] }

/-- A request referencing a product id that matches no row. -/
def reqMissingB : CreateOrderRequest := { items := [{ productId := "B", quantity := 1 }] }

/-- A request with an empty items list. -/
def reqEmptyItems : CreateOrderRequest := { items := [] }

/-- A request whose single item has quantity zero. -/
def reqQtyZero : CreateOrderRequest := { items := [{ productId := "A", quantity := 0 }] }

/-- The order row `createOrder dbStock5 "u1" reqQty3 "o1" "N1" 7` persists. -/
def orderO1 : OrderRow :=
  { id := "o1", orderNumber := "N1", userId := "u1", status := .pending, totalAmount := 3,
    shippingCost := 0, taxAmount := 0, shippingAddress := none, shippingCity := none,
    shippingPostalCode := none, shippingCountry := none, notes := none,
    createdAt := 7, updatedAt := 7 }

/-- The item row that order persists. -/
def itemA3 : OrderItem :=
  { orderId := "o1", productId := "A", quantity := 3, unitPrice := 1, totalPrice := 3 }

/-- A delivered order over the same item. -/
def deliveredO1 : OrderRow := { orderO1 with status := .delivered }

/-- An already-cancelled order over the same item. -/
def cancelledO1 : OrderRow := { orderO1 with status := .cancelled }

/-- Store with a pending order `o1` for two units of `A`. -/
def dbPending : DB := { products := [productA], orders := [orderO1], orderItems := [itemA3] }

/-- Store whose only order is delivered. -/
def dbDelivered : DB := { products := [productA], orders := [deliveredO1], orderItems := [itemA3] }

/-- Store whose only order is already cancelled. -/
def dbCancelled : DB := { products := [productA], orders := [cancelledO1], orderItems := [itemA3] }

/-- An order row with creation instant `i`, owned by user `u`. -/
def mkOrd (i : ℕ) : OrderRow :=
  { id := "", orderNumber := "", userId := "u", status := .pending, totalAmount := 0,
    shippingCost := 0, taxAmount := 0, shippingAddress := none, shippingCity := none,
    shippingPostalCode := none, shippingCountry := none, notes := none,
    createdAt := i, updatedAt := i }

/-- Store with 25 orders for user `u` — the spec's pagination example. -/
def db25 : DB := { products := [], orders := (List.range 25).map mkOrd, orderItems := [] }

/-! Claim theorems. -/

/-- C3: the spec requires that of two concurrent `createOrder` calls with
combined quantity above stock, at most one succeeds, the loser reports
`InsufficientStock`, and stock never goes negative.  The code's validation
is a read followed much later by an unconditional decrement, so in the
legal schedule where both calls validate before either writes, both calls
succeed against a stock of 5 (3 + 3 = 6 requested) and the stock column
ends at −1.  This refutes the claimed atomic check-and-decrement. -/
theorem concurrent_createOrder_oversell :
    (createOrderPair dbStock5 "u1" reqQty3 "o1" "N1" "u2" reqQty3 "o2" "N2" 0).2.1.isOk = true ∧
    (createOrderPair dbStock5 "u1" reqQty3 "o1" "N1" "u2" reqQty3 "o2" "N2" 0).2.2.isOk = true ∧
    stockOf dbStock5.products "A" = 5 ∧
    requestedQty reqQty3.items "A" = 3 ∧
    stockOf (createOrderPair dbStock5 "u1" reqQty3 "o1" "N1" "u2" reqQty3 "o2" "N2" 0).1.products "A"
      = -1 :=
  ⟨by decide, by decide, by decide, by decide, by decide⟩

/-- C7: the spec's transition table forbids leaving `DELIVERED`, but
`updateOrderStatus` writes any requested status unconditionally: on a
delivered order it happily records `PENDING` and returns the updated row. -/
theorem updateOrderStatus_ignores_state_machine :
    specAllowedTransition OrderStatus.delivered OrderStatus.pending = false ∧
    (updateOrderStatus dbDelivered "o1" OrderStatus.pending 1).1.orders.map OrderRow.status
      = [OrderStatus.pending] ∧
    ((updateOrderStatus dbDelivered "o1" OrderStatus.pending 1).2.map fun r => r.1.status)
      = some OrderStatus.pending :=
  ⟨by decide, by decide, by decide⟩

/-- C8: the claim (and the repo's own `CreateOrderDto` / OpenAPI schema)
says empty item lists and quantities below 1 are rejected, but no
validation middleware is mounted on `POST /` and the service checks
neither: an empty request yields a persisted zero-total order with no
items, and a quantity-0 item is persisted as an item row with quantity 0. -/
theorem createOrder_accepts_invalid_requests :
    (createOrder dbStock5 "u1" reqEmptyItems "o1" "N1" 0).2.isOk = true ∧
    (createOrder dbStock5 "u1" reqEmptyItems "o1" "N1" 0).1.orders.map OrderRow.id = ["o1"] ∧
    (createOrder dbStock5 "u1" reqQtyZero "o2" "N2" 0).2.isOk = true ∧
    (createOrder dbStock5 "u1" reqQtyZero "o2" "N2" 0).1.orderItems.map OrderItem.quantity = [0] :=
  ⟨by decide, by decide, by decide, by decide⟩

/-- C4 counterexample: the claim's per-item equation
`stock after = stock before − item.quantity` fails when one request lists
the same product twice: with stock 5 and two items of quantity 3, the call
succeeds (each item is validated against the same snapshot), stock ends at
−1, yet the claim predicts 5 − 3 = 2. -/
theorem createOrder_per_item_stock_cex :
    (createOrder dbStock5 "u1" reqDupA "o1" "N1" 0).2.isOk = true ∧
    ({ productId := "A", quantity := 3 } : RequestItem) ∈ reqDupA.items ∧
    stockOf dbStock5.products "A" - 3 = 2 ∧
    stockOf (createOrder dbStock5 "u1" reqDupA "o1" "N1" 0).1.products "A" = -1 :=
  ⟨by decide, by decide, by decide, by decide⟩

/-- The three error kinds the validation loop can raise. -/
def OrderError.isValidationError : OrderError → Bool
  | .productNotFound _ => true
  | .productUnavailable _ => true
  | .insufficientStock _ _ => true
  | _ => false

/-- C1: `createOrder` fails with `ProductNotFound` only against a request
item whose id matches no product, with `ProductUnavailable` only against a
matched product whose availability flag is off, and with
`InsufficientStock` only against an item exceeding the matched product's
stock, the error carrying that product's available quantity; any request
containing such an item makes the whole call fail with one of these three
errors; and a call failing with any of them leaves the store untouched —
no order row, no item row, no stock change. -/
theorem createOrder_error_contract (db : DB) (u : String) (od : CreateOrderRequest)
    (nid onum : String) (now : ℕ) :
    (∀ pid, (createOrder db u od nid onum now).2 = .error (.productNotFound pid) →
      (∃ it ∈ od.items, it.productId = pid) ∧ findProduct db.products pid = none) ∧
    (∀ nm, (createOrder db u od nid onum now).2 = .error (.productUnavailable nm) →
      ∃ it ∈ od.items, ∃ p, findProduct db.products it.productId = some p ∧
        p.name = nm ∧ p.isAvailable = false) ∧
    (∀ nm avail, (createOrder db u od nid onum now).2 = .error (.insufficientStock nm avail) →
      ∃ it ∈ od.items, ∃ p, findProduct db.products it.productId = some p ∧
        p.name = nm ∧ avail = p.stockQuantity ∧ p.stockQuantity < it.quantity) ∧
    ((∃ it ∈ od.items, findProduct db.products it.productId = none ∨
        ∃ p, findProduct db.products it.productId = some p ∧
          (p.isAvailable = false ∨ p.stockQuantity < it.quantity)) →
      ∃ e, (createOrder db u od nid onum now).2 = .error e ∧ e.isValidationError = true) ∧
    (∀ e, (createOrder db u od nid onum now).2 = .error e → e.isValidationError = true →
      (createOrder db u od nid onum now).1 = db) := by
  cases hv : validateItems db.products od.items with
  | error e0 =>
    have heq := createOrder_validate_error u nid onum now hv
    have hcls := validateItems_error db.products od.items e0 hv
    refine ⟨?_, ?_, ?_, ?_, ?_⟩
    · intro pid h
      rw [heq] at h
      simp only [Except.error.injEq] at h
      subst h
      rcases hcls with ⟨pid2, he, hmem, hnone⟩ | ⟨nm, he, _⟩ | ⟨nm, avail, he, _⟩
      · cases he
        exact ⟨hmem, hnone⟩
      · cases he
      · cases he
    · intro nm h
      rw [heq] at h
      simp only [Except.error.injEq] at h
      subst h
      rcases hcls with ⟨pid2, he, _⟩ | ⟨nm2, he, hw⟩ | ⟨nm2, avail, he, _⟩
      · cases he
      · cases he
        exact hw
      · cases he
    · intro nm avail h
      rw [heq] at h
      simp only [Except.error.injEq] at h
      subst h
      rcases hcls with ⟨pid2, he, _⟩ | ⟨nm2, he, _⟩ | ⟨nm2, avail2, he, hw⟩
      · cases he
      · cases he
      · cases he
        exact hw
    · intro _
      refine ⟨e0, by rw [heq], ?_⟩
      rcases hcls with ⟨pid2, he, _⟩ | ⟨nm2, he, _⟩ | ⟨nm2, avail2, he, _⟩ <;> subst he <;> rfl
    · intro e h _
      rw [heq]
  | ok pr =>
    obtain ⟨t, ois⟩ := pr
    have heq := createOrder_validate_ok u nid onum now hv
    obtain ⟨hsum, hgood, hmap⟩ := validateItems_ok db.products od.items t ois hv
    have hcor : ∀ it ∈ od.items, ∃ oi ∈ ois,
        oi.productId = it.productId ∧ oi.quantity = it.quantity := by
      intro it hit
      have hm : (it.productId, it.quantity) ∈
          ois.map (fun oi => (oi.productId, oi.quantity)) := by
        rw [hmap]
        exact List.mem_map_of_mem _ hit
      obtain ⟨oi, hoi, hpr⟩ := List.mem_map.mp hm
      exact ⟨oi, hoi, congrArg Prod.fst hpr, congrArg Prod.snd hpr⟩
    refine ⟨?_, ?_, ?_, ?_, ?_⟩
    · intro pid h
      rw [heq] at h
      have := commitOrder_snd_error _ _ _ _ _ _ _ _ _ h
      cases this
    · intro nm h
      rw [heq] at h
      have := commitOrder_snd_error _ _ _ _ _ _ _ _ _ h
      cases this
    · intro nm avail h
      rw [heq] at h
      have := commitOrder_snd_error _ _ _ _ _ _ _ _ _ h
      cases this
    · rintro ⟨it, hit, hbad⟩
      exfalso
      obtain ⟨oi, hoi, hpid, hqty⟩ := hcor it hit
      obtain ⟨_, p, hfp, _, hav, hst⟩ := hgood oi hoi
      rw [hpid] at hfp
      rcases hbad with hnone | ⟨p2, hfp2, hor⟩
      · rw [hfp] at hnone
        cases hnone
      · rw [hfp] at hfp2
        cases hfp2
        rcases hor with hb | hb
        · rw [hav] at hb
          cases hb
        · rw [hqty] at hst
          exact hst hb
    · intro e h hval
      rw [heq] at h
      have := commitOrder_snd_error _ _ _ _ _ _ _ _ _ h
      subst this
      cases hval

/-- C1 witness: against the one-product store, a request for unknown
product `B` fails and leaves the store untouched, and the failure carries
the missing id. -/
theorem createOrder_error_contract_witness :
    (createOrder dbStock5 "u1" reqMissingB "o1" "N1" 0).1 = dbStock5 ∧
    ((∃ it ∈ reqMissingB.items, it.productId = "B") ∧
      findProduct dbStock5.products "B" = none) := by
  have h := createOrder_error_contract dbStock5 "u1" reqMissingB "o1" "N1" 0
  exact ⟨h.2.2.2.2 (.productNotFound "B") (by decide) (by decide), h.1 "B" (by decide)⟩

/-- C2: a successfully created order's `totalAmount` is the sum of its
persisted items' `totalPrice`; each item's `totalPrice` is
`quantity * unitPrice` with `unitPrice` the product's price at creation
time; and no mutating operation of the service ever rewrites a persisted
item row — every operation only appends to the `order_item` table — so the
equalities persist for the lifetime of the order. -/
theorem createOrder_totalAmount_invariant (db : DB) (u : String) (od : CreateOrderRequest)
    (nid onum : String) (now : ℕ) (o : OrderRow) (its : List OrderItem)
    (hfreshO : ∀ r ∈ db.orders, r.id ≠ nid)
    (hfreshI : ∀ it ∈ db.orderItems, it.orderId ≠ nid)
    (hok : (createOrder db u od nid onum now).2 = .ok (o, its)) :
    o.totalAmount = (its.map OrderItem.totalPrice).sum ∧
    (∀ it ∈ its, it.totalPrice = it.unitPrice * (it.quantity : ℚ) ∧
      ∃ p, findProduct db.products it.productId = some p ∧ it.unitPrice = p.price) ∧
    (∀ (db2 : DB) (op : ServiceOp), ∃ newRows,
      (runOp db2 op).orderItems = db2.orderItems ++ newRows) := by
  cases hv : validateItems db.products od.items with
  | error e =>
    rw [createOrder_validate_error u nid onum now hv] at hok
    cases hok
  | ok pr =>
    obtain ⟨t, ois⟩ := pr
    rw [createOrder_validate_ok u nid onum now hv, commitOrder_eq hfreshO hfreshI] at hok
    simp only [Except.ok.injEq, Prod.mk.injEq] at hok
    obtain ⟨ho, hits⟩ := hok
    subst ho
    subst hits
    obtain ⟨hsum, hgood, _⟩ := validateItems_ok db.products od.items t ois hv
    refine ⟨?_, ?_, fun db2 op => runOp_orderItems_append db2 op⟩
    · have hfun : ((ois.map (withOrderId nid)).map OrderItem.totalPrice)
          = ois.map OrderItem.totalPrice := by
        rw [List.map_map]
        rfl
      rw [hfun]
      exact hsum
    · intro it hit
      obtain ⟨y, hy, rfl⟩ := List.mem_map.mp hit
      obtain ⟨htp, p, hfp, hup, _, _⟩ := hgood y hy
      exact ⟨htp, p, hfp, hup⟩

/-- C2 witness: the concrete order created from `reqQty3` satisfies the
total-amount equation. -/
theorem createOrder_totalAmount_invariant_witness :
    orderO1.totalAmount = ([itemA3].map OrderItem.totalPrice).sum := by
  have h := createOrder_totalAmount_invariant dbStock5 "u1" reqQty3 "o1" "N1" 7
    orderO1 [itemA3] (by decide) (by decide)
    (by simp [createOrder, validateItems, findProduct, commitOrder, getOrderById, createdRow,
      withOrderId, dbStock5, productA, reqQty3, orderO1, itemA3])
  exact h.1

/-- C4 (amended): after a successful `createOrder`, every product's stock
drops by the total quantity the request's items ask of it — so a product
untouched by the request keeps its stock, and when the request's product
ids are pairwise distinct each item's product drops by exactly that item's
quantity.  (The claim's unqualified per-item equation fails for requests
repeating a product id; see the counterexample.) -/
theorem createOrder_stock_decrease (db : DB) (u : String) (od : CreateOrderRequest)
    (nid onum : String) (now : ℕ) (o : OrderRow) (its : List OrderItem)
    (hok : (createOrder db u od nid onum now).2 = .ok (o, its)) :
    (∀ pid, stockOf (createOrder db u od nid onum now).1.products pid =
      stockOf db.products pid - requestedQty od.items pid) ∧
    ((od.items.map RequestItem.productId).Nodup → ∀ it ∈ od.items,
      stockOf (createOrder db u od nid onum now).1.products it.productId =
        stockOf db.products it.productId - it.quantity) := by
  cases hv : validateItems db.products od.items with
  | error e =>
    rw [createOrder_validate_error u nid onum now hv] at hok
    cases hok
  | ok pr =>
    obtain ⟨t, ois⟩ := pr
    have heq := createOrder_validate_ok u nid onum now hv
    have hfst : (createOrder db u od nid onum now).1.products =
        od.items.foldl (fun a it => decrementStock a it.productId it.quantity) db.products := by
      rw [heq, commitOrder_fst]
    obtain ⟨_, hgood, hmap⟩ := validateItems_ok db.products od.items t ois hv
    have hcor : ∀ it ∈ od.items, ∃ oi ∈ ois,
        oi.productId = it.productId ∧ oi.quantity = it.quantity := by
      intro it hit
      have hm : (it.productId, it.quantity) ∈
          ois.map (fun oi => (oi.productId, oi.quantity)) := by
        rw [hmap]
        exact List.mem_map_of_mem _ hit
      obtain ⟨oi, hoi, hpr⟩ := List.mem_map.mp hm
      exact ⟨oi, hoi, congrArg Prod.fst hpr, congrArg Prod.snd hpr⟩
    have hmain : ∀ pid, stockOf (createOrder db u od nid onum now).1.products pid =
        stockOf db.products pid - requestedQty od.items pid := by
      intro pid
      by_cases hp : (findProduct db.products pid).isSome
      · rw [hfst, stockOf_foldl_decrementStock od.items db.products pid hp]
      · have hnone : findProduct db.products pid = none :=
          Option.not_isSome_iff_eq_none.mp hp
        have hafter : findProduct
            (od.items.foldl (fun a it => decrementStock a it.productId it.quantity) db.products)
            pid = none := findProduct_foldl_decrementStock_none od.items db.products pid hnone
        have hz : requestedQty od.items pid = 0 := by
          refine requestedQty_eq_zero od.items pid fun it hit hpid => ?_
          obtain ⟨oi, hoi, hpid2, _⟩ := hcor it hit
          obtain ⟨_, p, hfp, _, _, _⟩ := hgood oi hoi
          rw [hpid2, hpid, hnone] at hfp
          cases hfp
        rw [hfst, hz, stockOf, hafter, stockOf, hnone]
        rfl
    refine ⟨hmain, fun hnd it hit => ?_⟩
    rw [hmain it.productId, requestedQty_nodup od.items hnd it hit]

/-- C4 witness: with a single-item request the referenced product's stock
drops by exactly the requested quantity. -/
theorem createOrder_stock_decrease_witness :
    stockOf (createOrder dbStock5 "u1" reqQty3 "o1" "N1" 7).1.products "A" =
      stockOf dbStock5.products "A" - requestedQty reqQty3.items "A" := by
  have h := createOrder_stock_decrease dbStock5 "u1" reqQty3 "o1" "N1" 7 orderO1 [itemA3]
    (by simp [createOrder, validateItems, findProduct, commitOrder, getOrderById, createdRow,
      withOrderId, dbStock5, productA, reqQty3, orderO1, itemA3])
  exact h.1 "A"

/-- C5: cancelling an existing order that is neither `DELIVERED` nor
`CANCELLED` succeeds, persists the order with status `CANCELLED`, and
raises every product's stock by the total quantity the order's items
record against it (with pairwise-distinct item products: by exactly each
item's recorded quantity). -/
theorem cancelOrder_restores_stock (db : DB) (oid : String) (now : ℕ)
    (o : OrderRow) (its : List OrderItem)
    (h : getOrderById db oid = some (o, its))
    (hc : o.status ≠ OrderStatus.cancelled) (hd : o.status ≠ OrderStatus.delivered) :
    (cancelOrder db oid now).2 =
      .ok (some ({ o with status := .cancelled, updatedAt := now }, its)) ∧
    getOrderById (cancelOrder db oid now).1 oid =
      some ({ o with status := .cancelled, updatedAt := now }, its) ∧
    (∀ pid, (findProduct db.products pid).isSome →
      stockOf (cancelOrder db oid now).1.products pid =
        stockOf db.products pid + recordedQty its pid) ∧
    ((its.map OrderItem.productId).Nodup → ∀ it ∈ its,
      (findProduct db.products it.productId).isSome →
      stockOf (cancelOrder db oid now).1.products it.productId =
        stockOf db.products it.productId + it.quantity) := by
  obtain ⟨hfind, hits⟩ := getOrderById_eq_some h
  have hpred : o.id = oid := by
    have := List.find?_some hfind
    simpa using this
  have heq := cancelOrder_ok_eq now h hc hd
  have hsnd : (cancelOrder db oid now).2 =
      .ok (some ({ o with status := .cancelled, updatedAt := now }, its)) := by
    rw [heq]
  have hget : getOrderById (cancelOrder db oid now).1 oid =
      some ({ o with status := .cancelled, updatedAt := now }, its) := by
    rw [heq]
    simp only [getOrderById, find?_orders_update, hfind, Option.map_some]
    simp [setStatusRow, hpred, hits]
  have hstock : ∀ pid, (findProduct db.products pid).isSome →
      stockOf (cancelOrder db oid now).1.products pid =
        stockOf db.products pid + recordedQty its pid := by
    intro pid hp
    rw [heq]
    exact stockOf_foldl_incrementStock its db.products pid hp
  refine ⟨hsnd, hget, hstock, fun hnd it hit hp => ?_⟩
  rw [hstock it.productId hp, recordedQty_nodup its hnd it hit]

/-- C5 witness: cancelling the pending order restores product `A`'s
stock by its recorded quantity and persists status `CANCELLED`. -/
theorem cancelOrder_restores_stock_witness :
    (cancelOrder dbPending "o1" 9).2 =
      .ok (some ({ orderO1 with status := .cancelled, updatedAt := 9 }, [itemA3])) ∧
    stockOf (cancelOrder dbPending "o1" 9).1.products "A" =
      stockOf dbPending.products "A" + recordedQty [itemA3] "A" := by
  have h := cancelOrder_restores_stock dbPending "o1" 9 orderO1 [itemA3]
    (by simp [getOrderById, dbPending, orderO1, itemA3]) (by decide) (by decide)
  exact ⟨h.1, h.2.2.1 "A" (by decide)⟩

/-- C6: `cancelOrder` on an already-`CANCELLED` or `DELIVERED` order fails
with the spec's `InvalidTransition` kind and leaves the store — stock and
status alike — exactly as it was; in particular, after one successful
cancellation a second `cancelOrder` on the same order fails with
"already cancelled" and changes nothing, so stock is restored only once. -/
theorem cancelOrder_terminal_rejected (db : DB) (oid : String) (now now2 : ℕ) :
    (∀ o its, getOrderById db oid = some (o, its) → o.status = OrderStatus.cancelled →
      cancelOrder db oid now = (db, .error .alreadyCancelled) ∧
      OrderError.isInvalidTransition .alreadyCancelled = true) ∧
    (∀ o its, getOrderById db oid = some (o, its) → o.status = OrderStatus.delivered →
      cancelOrder db oid now = (db, .error .cannotCancelDelivered) ∧
      OrderError.isInvalidTransition .cannotCancelDelivered = true) ∧
    (∀ db1 r, cancelOrder db oid now = (db1, .ok r) →
      cancelOrder db1 oid now2 = (db1, .error .alreadyCancelled)) := by
  refine ⟨fun o its h hc => ⟨cancelOrder_already h hc, rfl⟩,
    fun o its h hd => ⟨cancelOrder_delivered h hd, rfl⟩, ?_⟩
  intro db1 r hok
  cases hg : getOrderById db oid with
  | none =>
    have : cancelOrder db oid now = (db, .error .orderNotFound) := by
      simp only [cancelOrder, hg]
    rw [this] at hok
    simp only [Prod.mk.injEq] at hok
    cases hok.2
  | some v =>
    obtain ⟨o, its⟩ := v
    by_cases h1 : o.status = OrderStatus.cancelled
    · rw [cancelOrder_already hg h1] at hok
      simp only [Prod.mk.injEq] at hok
      cases hok.2
    · by_cases h2 : o.status = OrderStatus.delivered
      · rw [cancelOrder_delivered hg h2] at hok
        simp only [Prod.mk.injEq] at hok
        cases hok.2
      · rw [cancelOrder_ok_eq now hg h1 h2] at hok
        simp only [Prod.mk.injEq] at hok
        obtain ⟨hdb1, _⟩ := hok
        obtain ⟨hfind, hits⟩ := getOrderById_eq_some hg
        have hpred : o.id = oid := by
          have := List.find?_some hfind
          simpa using this
        have hg2 : getOrderById db1 oid =
            some ({ o with status := .cancelled, updatedAt := now }, its) := by
          rw [← hdb1]
          simp only [getOrderById, find?_orders_update, hfind, Option.map_some]
          simp [setStatusRow, hpred, hits]
        exact cancelOrder_already hg2 rfl

/-- C6 witness: on the already-cancelled order, `cancelOrder` fails with
the "already cancelled" error and returns the store unchanged. -/
theorem cancelOrder_terminal_rejected_witness :
    cancelOrder dbCancelled "o1" 3 = (dbCancelled, .error .alreadyCancelled) := by
  have h := cancelOrder_terminal_rejected dbCancelled "o1" 3 4
  exact (h.1 cancelledO1 [itemA3]
    (by simp [getOrderById, dbCancelled, cancelledO1, orderO1, itemA3]) (by decide)).1

/-- C9: both paginated queries are read-only (the store they return is the
one they were given); they report `total` as the number of matching
orders, echo `page` and `limit`, return at most `limit` orders — the
`[(page−1)·limit, page·limit)` slice of the matching orders sorted by
creation time descending — and compute `totalPages` as the ceiling of
`total / limit`, pinned down by `total ≤ totalPages·limit < total + limit`. -/
theorem getOrders_pagination (db : DB) (u : String) (page limit : ℕ)
    (hp : 1 ≤ page) (hl : 1 ≤ limit) :
    ((getUserOrders db u page limit).1 = db ∧
      (getUserOrders db u page limit).2.total =
        (db.orders.filter fun o => o.userId == u).length ∧
      (getUserOrders db u page limit).2.page = page ∧
      (getUserOrders db u page limit).2.limit = limit ∧
      (getUserOrders db u page limit).2.orders.length ≤ limit ∧
      ((getUserOrders db u page limit).2.orders.map Prod.fst).Sorted createdDesc ∧
      (∃ all : List OrderRow, all.Perm (db.orders.filter fun o => o.userId == u) ∧
        all.Sorted createdDesc ∧
        (getUserOrders db u page limit).2.orders.map Prod.fst =
          (all.drop ((page - 1) * limit)).take limit) ∧
      (getUserOrders db u page limit).2.totalPages =
        ⌈(((db.orders.filter fun o => o.userId == u).length : ℚ)) / (limit : ℚ)⌉₊ ∧
      (db.orders.filter fun o => o.userId == u).length ≤
        (getUserOrders db u page limit).2.totalPages * limit ∧
      (getUserOrders db u page limit).2.totalPages * limit <
        (db.orders.filter fun o => o.userId == u).length + limit) ∧
    ((getAllOrders db page limit).1 = db ∧
      (getAllOrders db page limit).2.total = db.orders.length ∧
      (getAllOrders db page limit).2.page = page ∧
      (getAllOrders db page limit).2.limit = limit ∧
      (getAllOrders db page limit).2.orders.length ≤ limit ∧
      ((getAllOrders db page limit).2.orders.map Prod.fst).Sorted createdDesc ∧
      (∃ all : List OrderRow, all.Perm db.orders ∧ all.Sorted createdDesc ∧
        (getAllOrders db page limit).2.orders.map Prod.fst =
          (all.drop ((page - 1) * limit)).take limit) ∧
      (getAllOrders db page limit).2.totalPages =
        ⌈((db.orders.length : ℚ)) / (limit : ℚ)⌉₊ ∧
      db.orders.length ≤ (getAllOrders db page limit).2.totalPages * limit ∧
      (getAllOrders db page limit).2.totalPages * limit < db.orders.length + limit) := by
  obtain ⟨a1, a2, a3, a4, a5, a6, a7, a8, a9⟩ :=
    paginate_spec db (db.orders.filter fun o => o.userId == u) page limit hl
  obtain ⟨b1, b2, b3, b4, b5, b6, b7, b8, b9⟩ := paginate_spec db db.orders page limit hl
  exact ⟨⟨rfl, a1, a2, a3, a4, a5, a6, a7, a8, a9⟩,
         ⟨rfl, b1, b2, b3, b4, b5, b6, b7, b8, b9⟩⟩

/-- C9 witness: in the spec's example store of 25 orders with limit 10,
`totalPages` is 3 and page 3 holds the remaining 5 orders. -/
theorem getOrders_pagination_witness :
    (getUserOrders db25 "u" 3 10).1 = db25 ∧
    (getUserOrders db25 "u" 3 10).2.total = 25 ∧
    (getUserOrders db25 "u" 3 10).2.totalPages = 3 ∧
    (getUserOrders db25 "u" 3 10).2.orders.length = 5 := by
  have h := getOrders_pagination db25 "u" 3 10 (by decide) (by decide)
  obtain ⟨⟨h1, h2, _, _, _, _, _, _, h8, h9⟩, _⟩ := h
  have hlen : (db25.orders.filter fun o => o.userId == "u").length = 25 := by decide
  refine ⟨h1, by rw [h2, hlen], ?_, by decide⟩
  rw [hlen] at h8 h9
  omega

/-- C10: `updateOrderStatus` touches nothing but the targeted order's
`status` and `updatedAt`: the product and order-item tables come back
unchanged, every order with a different id is returned identical, and the
matching order differs from its old row only in those two columns. -/
theorem updateOrderStatus_frame (db : DB) (oid : String) (st : OrderStatus) (now : ℕ) :
    (updateOrderStatus db oid st now).1.products = db.products ∧
    (updateOrderStatus db oid st now).1.orderItems = db.orderItems ∧
    List.Forall₂ (fun a b => (a.id ≠ oid → b = a) ∧
        (a.id = oid → b = { a with status := st, updatedAt := now }))
      db.orders (updateOrderStatus db oid st now).1.orders := by
  refine ⟨rfl, rfl, ?_⟩
  have horders : (updateOrderStatus db oid st now).1.orders =
      db.orders.map (setStatusRow oid st now) := rfl
  rw [horders]
  refine forall₂_map_self _ _ (fun a => ⟨fun hne => ?_, fun heq => ?_⟩) db.orders
  · simp [setStatusRow, hne]
  · simp [setStatusRow, heq]

/-- C10 witness: a concrete status update leaves products, items, and the
other columns of the store's single order intact. -/
theorem updateOrderStatus_frame_witness :
    (updateOrderStatus dbPending "o1" OrderStatus.shipped 2).1.products = dbPending.products ∧
    (updateOrderStatus dbPending "o1" OrderStatus.shipped 2).1.orderItems
      = dbPending.orderItems := by
  have h := updateOrderStatus_frame dbPending "o1" OrderStatus.shipped 2
  exact ⟨h.1, h.2.1⟩
